import Mathlib

/-!
Shallow embedding of the bulk-update engine of src/app.py
(`bulk_update` / `process_items`, lines 83-195): a Postman-collection
document tree is walked recursively and header / query-parameter
directives are applied to every request node.

Modelling conventions:
* A Python dict key that may be absent is an `Option` field; `None` stored
  under a present key is distinguished from an absent key where the code
  distinguishes them (only the `protocol` field, set to `None` by the
  string-URL normalization at line 143, while `get('protocol', 'http')`
  at line 169 defaults only when the key is absent).
* A Python `KeyError` on a missing dict key (`update_data['key']`, … ) is
  `Except.error`: `bulk_update` wraps the traversal in `try/except` and
  returns an error response, so the whole call fails.
* Python `str.split(sep)` is `String.splitOn`, `sep.join` is
  `String.intercalate`, list comprehensions are `List.filter`/`List.map`.
-/

set_option autoImplicit false

namespace PostmanToolkit

/-- A query parameter `{key, value}` as built at app.py lines 161-164. -/
structure QueryParam where
  key : String
  value : String
deriving DecidableEq, Repr

/-- A header `{key, value, type}` as built at app.py lines 120-124. -/
structure Header where
  key : String
  value : String
  type : String
deriving DecidableEq, Repr

/-- The `protocol` entry of a structured url dict: the key can be absent,
present with Python `None` (line 143 stores `None` when the string has no
`"://"`), or present with a string. -/
inductive ProtoField where
  | absent : ProtoField
  | null : ProtoField
  | val : String → ProtoField
deriving DecidableEq, Repr

/-- Structured url object `{raw, protocol, host, path, query}`
(app.py lines 141-147); `host`, `path`, `query` keys may be absent in
caller-supplied structured urls (the code reads them with `.get`). -/
structure StructUrl where
  raw : String
  protocol : ProtoField
  host : Option (List String)
  path : Option (List String)
  query : Option (List QueryParam)
deriving DecidableEq, Repr

/-- `request['url']` is either a plain string or a structured object
(the `isinstance(item['request']['url'], str)` test at line 138). -/
inductive Url where
  | str : String → Url
  | obj : StructUrl → Url
deriving DecidableEq, Repr

/-- A request: optional `header` list, optional `url`. -/
structure Request where
  header : Option (List Header)
  url : Option Url
deriving DecidableEq, Repr

/-- A collection item: optional `request` payload and optional nested
`item` list, independent of each other (app.py lines 102 and 180). -/
inductive Item where
  | mk : Option Request → Option (List Item) → Item

/-- The `request` field of an item. -/
def Item.request : Item → Option Request
  | Item.mk r _ => r

/-- The nested `item` field of an item. -/
def Item.children : Item → Option (List Item)
  | Item.mk _ c => c

/-- One update directive (the value of `updates['headers']` or
`updates['query_params']`): every field is optional because the code reads
them with `update_data['...']`, raising `KeyError` when absent. -/
structure Directive where
  action : Option String
  key : Option String
  value : Option String
  type : Option String
deriving DecidableEq, Repr

/-- The top-level collection document: `info` (opaque, only presence
modelled) and the `item` list. -/
structure Document where
  info : Option Unit
  item : Option (List Item)

/-- Python `d['k']`: return the value or raise `KeyError`. -/
def getRequired {α : Type} : Option α → Except String α
  | none => Except.error "KeyError"
  | some a => Except.ok a

/-- Python `str.split(sep)` for a one-character separator `sep`, on the
character list: scan left to right, cutting at every occurrence.  Like
Python, the result is never empty and splitting `""` gives `[""]`. -/
def pySplitChars1 (sep : Char) : List Char → List (List Char)
  | [] => [[]]
  | c :: rest =>
    if c = sep then [] :: pySplitChars1 sep rest
    else
      let r := pySplitChars1 sep rest
      (c :: r.headD []) :: r.tail

/-- Python `str.split("://")` on the character list: scan left to right,
cutting at every non-overlapping occurrence of `"://"` (the only
multi-character separator the code uses). -/
def pySplitSchemeChars : List Char → List (List Char)
  | ':' :: '/' :: '/' :: rest => [] :: pySplitSchemeChars rest
  | c :: rest =>
    let r := pySplitSchemeChars rest
    (c :: r.headD []) :: r.tail
  | [] => [[]]

/-- Python `s.split(sep)` for a one-character separator, on strings. -/
def pySplitOn (sep : Char) (s : String) : List String :=
  (pySplitChars1 sep s.toList).map (fun cs => String.mk cs)

/-- Python `s.split("://")`, on strings. -/
def pySplitScheme (s : String) : List String :=
  (pySplitSchemeChars s.toList).map (fun cs => String.mk cs)

/-- Python `'://' in s`: `s.split("://")` has at least two pieces exactly
when `"://"` occurs in `s`. -/
def strHasSchemeSep (s : String) : Bool :=
  2 ≤ (pySplitScheme s).length

/-- String-url normalization, app.py lines 140-147: split off everything
from the first `'?'`, then derive `protocol` / `host` / `path` by the
`"://"`, `'/'` and `'.'` splits; `query` always starts empty and `raw`
keeps the original string.  When the base has no `"://"` the code stores
Python `None` under `protocol` (not an absent key). -/
def normalizeUrl (s : String) : StructUrl :=
  let base := (pySplitOn '?' s).headD ""
  if strHasSchemeSep base then
    let afterScheme := ((pySplitScheme base).getD 1 "")
    { raw := s
      protocol := ProtoField.val ((pySplitScheme base).headD "")
      host := some (pySplitOn '.' ((pySplitOn '/' afterScheme).headD ""))
      path := some ((pySplitOn '/' afterScheme).drop 1)
      query := some [] }
  else
    { raw := s
      protocol := ProtoField.null
      host := some (pySplitOn '.' ((pySplitOn '/' base).headD ""))
      path := some ((pySplitOn '/' base).drop 1)
      query := some [] }

/-- How the f-string at app.py line 171 renders
`url.get('protocol', 'http')`: the `'http'` default applies only to an
absent key; a stored `None` is rendered as the string `"None"`. -/
def protocolStr : ProtoField → String
  | ProtoField.absent => "http"
  | ProtoField.null => "None"
  | ProtoField.val s => s

/-- Raw-url reconstruction, app.py lines 166-171: `key=value` pairs joined
with `'&'`, path joined with `'/'`, host joined with `'.'`, absent `host` /
`path` defaulting to `[]`, assembled as `protocol://host/path?query`. -/
def rebuildRaw (u : StructUrl) : String :=
  let queryPart := String.intercalate "&" ((u.query.getD []).map (fun q => q.key ++ "=" ++ q.value))
  let pathPart := String.intercalate "/" (u.path.getD [])
  let hostPart := String.intercalate "." (u.host.getD [])
  protocolStr u.protocol ++ "://" ++ hostPart ++ "/" ++ pathPart ++ "?" ++ queryPart

/-- The header-add scan, app.py lines 112-124: update `value` of the first
entry whose key matches (type untouched), else append `{k, v, t}`. -/
def addHeaderEntry (k v t : String) : List Header → List Header
  | [] => [⟨k, v, t⟩]
  | h :: rest =>
    if h.key = k then { h with value := v } :: rest
    else h :: addHeaderEntry k v t rest

/-- The query-add scan, app.py lines 152-164: update `value` of the first
entry whose key matches, else append `{k, v}`. -/
def addQueryParam (k v : String) : List QueryParam → List QueryParam
  | [] => [⟨k, v⟩]
  | p :: rest =>
    if p.key = k then { p with value := v } :: rest
    else p :: addQueryParam k v rest

/-- The `headers` branch of `process_items`, app.py lines 105-131.
Directive fields are read exactly where the Python code reads them: the
`add` path always reads `key` and `value` (in the scan or in the appended
dict), the `remove` path reads `key` only when a non-empty header list is
actually filtered. -/
def applyHeaders (d : Directive) (req : Request) : Except String Request := do
  let act ← getRequired d.action
  if act = "add" then do
    let hs := req.header.getD []
    let k ← getRequired d.key
    let v ← getRequired d.value
    let t := d.type.getD "text"
    pure { req with header := some (addHeaderEntry k v t hs) }
  else if act = "remove" then
    match req.header with
    | none => pure req
    | some hs =>
      match hs with
      | [] => pure { req with header := some [] }
      | _ :: _ => do
        let k ← getRequired d.key
        pure { req with header := some (hs.filter (fun h => h.key != k)) }
  else
    pure req

/-- The `query_params` branch of `process_items`, app.py lines 133-178:
skip requests without a url; normalize a string url; ensure `query`
exists; then `add` (scan + append + regenerate `raw`) or `remove`
(filter, `raw` untouched).  The normalization and the `query` default
happen before the `action` field is read. -/
def applyQueryParams (d : Directive) (req : Request) : Except String Request := do
  match req.url with
  | none => pure req
  | some u =>
    let su0 :=
      match u with
      | Url.str s => normalizeUrl s
      | Url.obj su => su
    let su1 := { su0 with query := some (su0.query.getD []) }
    let act ← getRequired d.action
    if act = "add" then do
      let k ← getRequired d.key
      let v ← getRequired d.value
      let su2 := { su1 with query := some (addQueryParam k v (su1.query.getD [])) }
      let su3 := { su2 with raw := rebuildRaw su2 }
      pure { req with url := some (Url.obj su3) }
    else if act = "remove" then
      match su1.query with
      | none => pure { req with url := some (Url.obj su1) }
      | some qs =>
        match qs with
        | [] => pure { req with url := some (Url.obj { su1 with query := some [] }) }
        | _ :: _ => do
          let k ← getRequired d.key
          pure { req with url := some (Url.obj { su1 with query := some (qs.filter (fun p => p.key != k)) }) }
    else
      pure { req with url := some (Url.obj su1) }

/-- Dispatch on the update-type string, app.py lines 104-105 / 133:
unknown update types are silently ignored. -/
def applyUpdate (updateType : String) (d : Directive) (req : Request) : Except String Request :=
  if updateType = "headers" then applyHeaders d req
  else if updateType = "query_params" then applyQueryParams d req
  else pure req

/-- The inner `for update_type, update_data in updates.items()` loop,
app.py line 104: apply every directive in order to one request. -/
def processRequest (updates : List (String × Directive)) (req : Request) : Except String Request :=
  updates.foldlM (fun r ud => applyUpdate ud.1 ud.2 r) req

/-- The recursive tree walker `process_items`, app.py lines 100-182: for
each item, apply all directives to its `request` (if present), then
recurse into its nested `item` list (if present), independently. -/
def process_items (updates : List (String × Directive)) : List Item → Except String (List Item)
  | [] => pure []
  | Item.mk r sub :: rest => do
    let r' ←
      match r with
      | none => pure none
      | some req => do
        let req' ← processRequest updates req
        pure (some req')
    let sub' ←
      match sub with
      | none => pure none
      | some items => do
        let items' ← process_items updates items
        pure (some items')
    let rest' ← process_items updates rest
    pure (Item.mk r' sub' :: rest')

/-- The engine-level `bulk_update`, app.py lines 95-195 (the I/O plumbing
around it is out of scope): `collection['item']` raises `KeyError` when
absent (caught and turned into an error response); `info` is never read;
on success the mutated document is returned. -/
def bulk_update (doc : Document) (updates : List (String × Directive)) : Except String Document :=
  match doc.item with
  | none => Except.error "KeyError"
  | some items =>
    (process_items updates items).map (fun items' => { doc with item := some items' })

/-! ### Derived observations used by the specification claims -/

/-- Number of query parameters with key `K`. -/
def countKeyQ (K : String) (l : List QueryParam) : Nat :=
  l.countP (fun p => p.key == K)

/-- Number of headers with key `K`. -/
def countKeyH (K : String) (l : List Header) : Nat :=
  l.countP (fun h => h.key == K)

/-- The query list of a url as the query operator sees it right after
normalization: a string url always normalizes to an empty query list, a
structured url keeps its own (defaulting an absent key to `[]`). -/
def urlQuery0 : Url → List QueryParam
  | Url.str _ => []
  | Url.obj su => su.query.getD []

/-- The `raw` string of a url: a string url is its own raw form. -/
def rawOf : Url → String
  | Url.str s => s
  | Url.obj su => su.raw

/-- All request payloads of an item tree in traversal order: an item's own
request first, then the requests of its nested items, then the rest of the
sequence. -/
def collectRequests : List Item → List Request
  | [] => []
  | Item.mk r sub :: rest =>
    (match r with | none => [] | some req => [req]) ++
    (match sub with | none => [] | some items => collectRequests items) ++
    collectRequests rest

/-- The folder skeleton of an item tree: request payloads are blanked (only
their presence kept) so that equal skeletons mean equal tree shape. -/
def skeleton : List Item → List Item
  | [] => []
  | Item.mk r sub :: rest =>
    Item.mk (r.map (fun _ => { header := none, url := none }))
        (match sub with | none => none | some items => some (skeleton items))
      :: skeleton rest

/-! ### Basic lemmas -/

lemma except_bind_ok_iff {α β : Type} (x : Except String α) (f : α → Except String β) (b : β) :
    (x >>= f) = Except.ok b ↔ ∃ a, x = Except.ok a ∧ f a = Except.ok b := by
  cases x <;> simp [Bind.bind, Except.bind]

lemma except_map_ok_iff {α β : Type} (f : α → β) (x : Except String α) (b : β) :
    Except.map f x = Except.ok b ↔ ∃ a, x = Except.ok a ∧ f a = b := by
  cases x <;> simp [Except.map]

lemma rebuildRaw_set_raw (su : StructUrl) (x : String) :
    rebuildRaw { su with raw := x } = rebuildRaw su := rfl

lemma except_ok_bind {α β : Type} (a : α) (f : α → Except String β) :
    (Except.ok a >>= f) = f a := rfl

lemma mapM_ok_append {α β : Type} {f : α → Except String β} {l1 l2 : List α} {r1 r2 : List β}
    (h1 : l1.mapM f = Except.ok r1) (h2 : l2.mapM f = Except.ok r2) :
    (l1 ++ l2).mapM f = Except.ok (r1 ++ r2) := by
  rw [List.mapM_append, h1, except_ok_bind, h2, except_ok_bind]
  rfl

lemma mapM_ok_singleton {α β : Type} {f : α → Except String β} {a : α} {b : β}
    (h : f a = Except.ok b) : ([a].mapM f) = Except.ok [b] := by
  rw [List.mapM_cons, h, except_ok_bind, List.mapM_nil, pure_bind]
  rfl

lemma normalizeUrl_query (s : String) : (normalizeUrl s).query = some [] := by
  simp only [normalizeUrl]
  split <;> rfl

lemma normalizeUrl_raw (s : String) : (normalizeUrl s).raw = s := by
  simp only [normalizeUrl]
  split <;> rfl

/-- The query-add scan always leaves `⟨K, V⟩` as the first entry with
key `K`. -/
lemma find?_addQueryParam (K V : String) (l : List QueryParam) :
    (addQueryParam K V l).find? (fun p => p.key == K) = some ⟨K, V⟩ := by
  induction l with
  | nil => simp [addQueryParam]
  | cons p rest ih =>
    by_cases h : p.key = K
    · simp [addQueryParam, h]
    · simp [addQueryParam, h, ih]

/-- Query add updates the first match in place or appends, so the number of
entries with key `K` becomes 1 when none existed and is unchanged
otherwise. -/
lemma countKeyQ_addQueryParam (K V : String) (l : List QueryParam) :
    countKeyQ K (addQueryParam K V l) =
      if countKeyQ K l = 0 then 1 else countKeyQ K l := by
  induction l with
  | nil => simp [addQueryParam, countKeyQ]
  | cons p rest ih =>
    by_cases h : p.key = K
    · simp [addQueryParam, h, countKeyQ, List.countP_cons]
    · have hb : (p.key == K) = false := by simp [h]
      simp only [countKeyQ] at ih ⊢
      simp only [addQueryParam, if_neg h, List.countP_cons, hb, if_false, Nat.add_zero]
      exact ih

/-- When no entry with key `K` exists, query add is a plain append. -/
lemma addQueryParam_of_count_zero (K V : String) (l : List QueryParam)
    (h : countKeyQ K l = 0) :
    addQueryParam K V l = l ++ [⟨K, V⟩] := by
  induction l with
  | nil => simp [addQueryParam]
  | cons p rest ih =>
    simp only [countKeyQ, List.countP_eq_zero] at h ih
    have hne : ¬ p.key = K := by
      have := h p (by simp)
      simpa using this
    have hrest : ∀ q ∈ rest, ¬ (q.key == K) = true :=
      fun q hq => h q (List.mem_cons_of_mem _ hq)
    simp [addQueryParam, hne, ih hrest]

/-- Filtering out key `K` leaves zero entries with key `K`. -/
lemma countKeyQ_filter_ne (K : String) (l : List QueryParam) :
    countKeyQ K (l.filter (fun p => p.key != K)) = 0 := by
  simp only [countKeyQ, List.countP_eq_zero]
  intro p hp
  have := (List.mem_filter.mp hp).2
  simp only [bne_iff_ne, ne_eq] at this
  simp [this]

/-- The header-add scan leaves, as the first entry with key `K`, the prior
first match with its value replaced (key and type untouched), or the newly
appended `⟨K, V, t⟩` when there was no match. -/
lemma find?_addHeaderEntry (K V t : String) (l : List Header) :
    (addHeaderEntry K V t l).find? (fun h => h.key == K) =
      match l.find? (fun h => h.key == K) with
      | none => some ⟨K, V, t⟩
      | some h0 => some ⟨h0.key, V, h0.type⟩ := by
  induction l with
  | nil => simp [addHeaderEntry]
  | cons h rest ih =>
    by_cases hk : h.key = K
    · simp [addHeaderEntry, hk]
    · simp [addHeaderEntry, hk, ih]

/-- Header add updates the first match in place or appends, so the number
of headers with key `K` becomes 1 when none existed and is unchanged
otherwise. -/
lemma countKeyH_addHeaderEntry (K V t : String) (l : List Header) :
    countKeyH K (addHeaderEntry K V t l) =
      if countKeyH K l = 0 then 1 else countKeyH K l := by
  induction l with
  | nil => simp [addHeaderEntry, countKeyH]
  | cons h rest ih =>
    by_cases hk : h.key = K
    · simp [addHeaderEntry, hk, countKeyH, List.countP_cons]
    · have hb : (h.key == K) = false := by simp [hk]
      simp only [countKeyH] at ih ⊢
      simp only [addHeaderEntry, if_neg hk, List.countP_cons, hb, if_false, Nat.add_zero]
      exact ih

/-- When no header with key `K` exists, header add is a plain append. -/
lemma addHeaderEntry_of_count_zero (K V t : String) (l : List Header)
    (h : countKeyH K l = 0) :
    addHeaderEntry K V t l = l ++ [⟨K, V, t⟩] := by
  induction l with
  | nil => simp [addHeaderEntry]
  | cons h0 rest ih =>
    simp only [countKeyH, List.countP_eq_zero] at h ih
    have hne : ¬ h0.key = K := by
      have := h h0 (by simp)
      simpa using this
    have hrest : ∀ g ∈ rest, ¬ (g.key == K) = true :=
      fun g hg => h g (List.mem_cons_of_mem _ hg)
    simp [addHeaderEntry, hne, ih hrest]

/-- Filtering out key `K` leaves zero headers with key `K`. -/
lemma countKeyH_filter_ne (K : String) (l : List Header) :
    countKeyH K (l.filter (fun h => h.key != K)) = 0 := by
  simp only [countKeyH, List.countP_eq_zero]
  intro h hh
  have := (List.mem_filter.mp hh).2
  simp only [bne_iff_ne, ne_eq] at this
  simp [this]

/-! ### Claims -/

/-- C1 (counterexample): with two pre-existing query entries for key `"K"`,
a `query_params add {key:"K", value:"V"}` leaves TWO entries with key `"K"`
(the first updated in place, the duplicate untouched), not exactly one as
the claim states. -/
theorem query_add_duplicate_key_counterexample :
    applyQueryParams ⟨some "add", some "K", some "V", none⟩
        { header := none,
          url := some (Url.obj { raw := "r", protocol := ProtoField.val "https",
                                 host := some ["h"], path := some [],
                                 query := some [⟨"K", "a"⟩, ⟨"K", "b"⟩] }) } =
      Except.ok { header := none,
                  url := some (Url.obj { raw := "https://h/?K=V&K=b",
                                         protocol := ProtoField.val "https",
                                         host := some ["h"], path := some [],
                                         query := some [⟨"K", "V"⟩, ⟨"K", "b"⟩] }) } ∧
    countKeyQ "K" [⟨"K", "V"⟩, ⟨"K", "b"⟩] = 2 :=
  ⟨rfl, rfl⟩

/-- C1 (amended): after `query_params add {key:K, value:V}` on any request
with a url, the first query entry with key `K` has value `V`; the number of
entries with key `K` is 1 when none existed before and unchanged otherwise
(duplicates beyond the first prior match are preserved); when no entry
existed the pair is appended; and `url.raw` equals `rebuildRaw` of the
resulting structured url. -/
theorem query_add_first_match_and_raw (req : Request) (u : Url) (d : Directive) (K V : String)
    (hu : req.url = some u) (ha : d.action = some "add") (hk : d.key = some K)
    (hv : d.value = some V) :
    ∃ su' : StructUrl,
      applyQueryParams d req = Except.ok { req with url := some (Url.obj su') } ∧
      su'.query = some (addQueryParam K V (urlQuery0 u)) ∧
      (su'.query.getD []).find? (fun p => p.key == K) = some ⟨K, V⟩ ∧
      countKeyQ K (su'.query.getD []) =
        (if countKeyQ K (urlQuery0 u) = 0 then 1 else countKeyQ K (urlQuery0 u)) ∧
      (countKeyQ K (urlQuery0 u) = 0 → su'.query = some (urlQuery0 u ++ [⟨K, V⟩])) ∧
      su'.raw = rebuildRaw su' := by
  obtain ⟨hdr, url⟩ := req
  obtain ⟨da, dk, dv, dt⟩ := d
  simp only [Request.url] at hu
  simp only at ha hk hv
  subst hu ha hk hv
  cases u with
  | obj su =>
    refine ⟨_, rfl, rfl, ?_, ?_, ?_, ?_⟩
    · simp [urlQuery0, find?_addQueryParam]
    · simp [urlQuery0, countKeyQ_addQueryParam]
    · intro h0
      simp [urlQuery0] at h0 ⊢
      simp [addQueryParam_of_count_zero _ _ _ h0]
    · rfl
  | str s =>
    refine ⟨{ normalizeUrl s with
              query := some (addQueryParam K V []),
              raw := rebuildRaw { normalizeUrl s with
                                  query := some (addQueryParam K V []) } }, ?_, ?_, ?_, ?_, ?_, ?_⟩
    · simp [applyQueryParams, getRequired, normalizeUrl_query, bind, Except.bind, pure, Except.pure]
    · simp [urlQuery0]
    · simp [urlQuery0, find?_addQueryParam]
    · simp [urlQuery0, countKeyQ, addQueryParam]
    · intro h0
      simp [urlQuery0, addQueryParam]
    · rfl

/-- C1 (witness): the amended theorem applied to the concrete request with
string url `"a/b"` and directive `query_params add {key:"K", value:"V"}`. -/
theorem query_add_first_match_and_raw_witness :
    ∃ su' : StructUrl,
      applyQueryParams ⟨some "add", some "K", some "V", none⟩
          { header := none, url := some (Url.str "a/b") } =
        Except.ok { header := (none : Option (List Header)), url := some (Url.obj su') } ∧
      su'.query = some (addQueryParam "K" "V" (urlQuery0 (Url.str "a/b"))) ∧
      (su'.query.getD []).find? (fun p => p.key == "K") = some ⟨"K", "V"⟩ ∧
      countKeyQ "K" (su'.query.getD []) =
        (if countKeyQ "K" (urlQuery0 (Url.str "a/b")) = 0 then 1
         else countKeyQ "K" (urlQuery0 (Url.str "a/b"))) ∧
      (countKeyQ "K" (urlQuery0 (Url.str "a/b")) = 0 →
        su'.query = some (urlQuery0 (Url.str "a/b") ++ [⟨"K", "V"⟩])) ∧
      su'.raw = rebuildRaw su' :=
  query_add_first_match_and_raw _ _ _ _ _ rfl rfl rfl rfl

/-- C2 (counterexample): with two pre-existing headers for key `"K"`, a
`headers add {key:"K", value:"V"}` leaves TWO headers with key `"K"` (the
first updated in place, the duplicate untouched), not exactly one as the
claim states. -/
theorem header_add_duplicate_key_counterexample :
    applyHeaders ⟨some "add", some "K", some "V", none⟩
        { header := some [⟨"K", "a", "t1"⟩, ⟨"K", "b", "t2"⟩], url := none } =
      Except.ok { header := some [⟨"K", "V", "t1"⟩, ⟨"K", "b", "t2"⟩], url := none } ∧
    countKeyH "K" [⟨"K", "V", "t1"⟩, ⟨"K", "b", "t2"⟩] = 2 :=
  ⟨rfl, rfl⟩

/-- C2 (amended): after `headers add {key:K, value:V, type:T?}`, the first
header with key `K` has value `V` and its prior type (or `T ?? "text"` when
it was newly appended); the number of headers with key `K` is 1 when none
existed before and unchanged otherwise; when none existed the new header is
appended (a missing header list counting as empty). -/
theorem header_add_first_match (req : Request) (d : Directive) (K V : String)
    (ha : d.action = some "add") (hk : d.key = some K) (hv : d.value = some V) :
    ∃ hs' : List Header,
      applyHeaders d req = Except.ok { req with header := some hs' } ∧
      (hs'.find? (fun h => h.key == K)).map Header.value = some V ∧
      (hs'.find? (fun h => h.key == K)).map Header.type =
        (match (req.header.getD []).find? (fun h => h.key == K) with
         | none => some (d.type.getD "text")
         | some h0 => some h0.type) ∧
      countKeyH K hs' =
        (if countKeyH K (req.header.getD []) = 0 then 1
         else countKeyH K (req.header.getD [])) ∧
      (countKeyH K (req.header.getD []) = 0 →
        hs' = req.header.getD [] ++ [⟨K, V, d.type.getD "text"⟩]) := by
  obtain ⟨hdr, url⟩ := req
  obtain ⟨da, dk, dv, dt⟩ := d
  simp only at ha hk hv
  subst ha hk hv
  refine ⟨addHeaderEntry K V (dt.getD "text") (hdr.getD []), rfl, ?_, ?_, ?_, ?_⟩
  · rw [find?_addHeaderEntry]
    cases (hdr.getD []).find? (fun h => h.key == K) <;> rfl
  · rw [find?_addHeaderEntry]
    cases (hdr.getD []).find? (fun h => h.key == K) <;> rfl
  · exact countKeyH_addHeaderEntry K V _ (hdr.getD [])
  · intro h0
    exact addHeaderEntry_of_count_zero K V _ (hdr.getD []) h0

/-- C2 (witness): the amended theorem applied to a request with one header
`{key:"A"}` and directive `headers add {key:"K", value:"V", type:"T"}`. -/
theorem header_add_first_match_witness :
    ∃ hs' : List Header,
      applyHeaders ⟨some "add", some "K", some "V", some "T"⟩
          { header := some [⟨"A", "x", "t0"⟩], url := none } =
        Except.ok { header := some hs', url := (none : Option Url) } ∧
      (hs'.find? (fun h => h.key == "K")).map Header.value = some "V" ∧
      (hs'.find? (fun h => h.key == "K")).map Header.type =
        (match ([⟨"A", "x", "t0"⟩] : List Header).find? (fun h => h.key == "K") with
         | none => some ((some "T").getD "text")
         | some h0 => some h0.type) ∧
      countKeyH "K" hs' =
        (if countKeyH "K" [⟨"A", "x", "t0"⟩] = 0 then 1
         else countKeyH "K" [⟨"A", "x", "t0"⟩]) ∧
      (countKeyH "K" [⟨"A", "x", "t0"⟩] = 0 →
        hs' = [⟨"A", "x", "t0"⟩] ++ [⟨"K", "V", (some "T").getD "text"⟩]) :=
  header_add_first_match _ _ _ _ rfl rfl rfl

/-- C3: a `headers remove {key:K}` deletes every header with key `K` (all
duplicates) and keeps the other headers in their relative order (the result
is exactly the original list filtered to the non-`K` keys); a request with
no header field is left untouched. -/
theorem header_remove_complete (req : Request) (d : Directive) (K : String)
    (ha : d.action = some "remove") (hk : d.key = some K) :
    ∃ req' : Request,
      applyHeaders d req = Except.ok req' ∧
      req'.url = req.url ∧
      (req.header = none → req' = req) ∧
      ∀ hs : List Header, req.header = some hs →
        req'.header = some (hs.filter (fun h => h.key != K)) ∧
        countKeyH K (req'.header.getD []) = 0 := by
  obtain ⟨hdr, url⟩ := req
  obtain ⟨da, dk, dv, dt⟩ := d
  simp only at ha hk
  subst ha hk
  cases hdr with
  | none =>
    refine ⟨⟨none, url⟩, rfl, rfl, fun _ => rfl, ?_⟩
    intro hs h
    simp at h
  | some hs =>
    cases hs with
    | nil =>
      refine ⟨⟨some [], url⟩, rfl, rfl, ?_, ?_⟩
      · intro h
        simp at h
      · intro hs0 h
        obtain rfl : ([] : List Header) = hs0 := by simpa using h
        exact ⟨rfl, rfl⟩
    | cons h0 t =>
      refine ⟨⟨some ((h0 :: t).filter (fun h => h.key != K)), url⟩, rfl, rfl, ?_, ?_⟩
      · intro h
        simp at h
      · intro hs0 h
        obtain rfl : h0 :: t = hs0 := by simpa using h
        exact ⟨rfl, by simpa using countKeyH_filter_ne K (h0 :: t)⟩

/-- C3 (witness): the theorem applied to a request holding two `"K"`
headers around an `"X"` header, with directive `headers remove {key:"K"}`. -/
theorem header_remove_complete_witness :
    ∃ req' : Request,
      applyHeaders ⟨some "remove", some "K", none, none⟩
          { header := some [⟨"K", "a", "t"⟩, ⟨"X", "b", "t"⟩, ⟨"K", "c", "t"⟩], url := none } =
        Except.ok req' ∧
      req'.url = ({ header := some [⟨"K", "a", "t"⟩, ⟨"X", "b", "t"⟩, ⟨"K", "c", "t"⟩],
                    url := none } : Request).url ∧
      (({ header := some [⟨"K", "a", "t"⟩, ⟨"X", "b", "t"⟩, ⟨"K", "c", "t"⟩],
          url := none } : Request).header = none →
        req' = { header := some [⟨"K", "a", "t"⟩, ⟨"X", "b", "t"⟩, ⟨"K", "c", "t"⟩],
                 url := none }) ∧
      ∀ hs : List Header,
        ({ header := some [⟨"K", "a", "t"⟩, ⟨"X", "b", "t"⟩, ⟨"K", "c", "t"⟩],
           url := none } : Request).header = some hs →
          req'.header = some (hs.filter (fun h => h.key != "K")) ∧
          countKeyH "K" (req'.header.getD []) = 0 :=
  header_remove_complete _ _ _ rfl rfl

/-- C4: a successful `process_items` call preserves the folder skeleton of
the tree and processes EVERY request node, at every nesting depth, in
traversal order, each one through the full directive list
(`processRequest`); nested item sequences are walked independently of
whether their item also carries a request. -/
theorem recursive_coverage (updates : List (String × Directive)) (items items' : List Item)
    (h : process_items updates items = Except.ok items') :
    skeleton items' = skeleton items ∧
    (collectRequests items).mapM (processRequest updates) = Except.ok (collectRequests items') := by
  induction items using process_items.induct updates generalizing items' with
  | case1 =>
    simp only [process_items, pure, Except.pure, Except.ok.injEq] at h
    subst h
    constructor
    · rfl
    · simp only [collectRequests]
      rfl
  | case2 sub rest ihrest ihsub =>
    cases sub with
    | none =>
      simp only [process_items, pure_bind] at h
      rw [except_bind_ok_iff] at h
      obtain ⟨rest2, hrest, h⟩ := h
      simp only [pure, Except.pure, Except.ok.injEq] at h
      subst h
      obtain ⟨hsk, hmap⟩ := ihrest rest2 hrest
      constructor
      · simp [skeleton, hsk]
      · simpa [collectRequests] using hmap
    | some inner =>
      simp only [process_items, pure_bind, bind_assoc] at h
      rw [except_bind_ok_iff] at h
      obtain ⟨inner2, hinner, h⟩ := h
      rw [except_bind_ok_iff] at h
      obtain ⟨rest2, hrest, h⟩ := h
      simp only [pure, Except.pure, Except.ok.injEq] at h
      subst h
      obtain ⟨hsk1, hmap1⟩ := ihsub inner2 hinner
      obtain ⟨hsk2, hmap2⟩ := ihrest rest2 hrest
      constructor
      · simp [skeleton, hsk1, hsk2]
      · simp only [collectRequests, List.nil_append]
        exact mapM_ok_append hmap1 hmap2
  | case3 sub rest req ihrest ihsub =>
    cases sub with
    | none =>
      simp only [process_items, pure_bind, bind_assoc] at h
      rw [except_bind_ok_iff] at h
      obtain ⟨req2, hreq, h⟩ := h
      rw [except_bind_ok_iff] at h
      obtain ⟨rest2, hrest, h⟩ := h
      simp only [pure, Except.pure, Except.ok.injEq] at h
      subst h
      obtain ⟨hsk, hmap⟩ := ihrest rest2 hrest
      constructor
      · simp [skeleton, hsk]
      · simp only [collectRequests, List.append_nil]
        exact mapM_ok_append (mapM_ok_singleton hreq) hmap
    | some inner =>
      simp only [process_items, pure_bind, bind_assoc] at h
      rw [except_bind_ok_iff] at h
      obtain ⟨req2, hreq, h⟩ := h
      rw [except_bind_ok_iff] at h
      obtain ⟨inner2, hinner, h⟩ := h
      rw [except_bind_ok_iff] at h
      obtain ⟨rest2, hrest, h⟩ := h
      simp only [pure, Except.pure, Except.ok.injEq] at h
      subst h
      obtain ⟨hsk1, hmap1⟩ := ihsub inner2 hinner
      obtain ⟨hsk2, hmap2⟩ := ihrest rest2 hrest
      constructor
      · simp [skeleton, hsk1, hsk2]
      · simp only [collectRequests]
        exact mapM_ok_append (mapM_ok_append (mapM_ok_singleton hreq) hmap1) hmap2

/-- A depth-3 tree for the C4 witness: the root item carries a request AND
nested items; one nested item is a pure folder holding a deeper request,
another is a plain request node. -/
def coverageItems : List Item :=
  [Item.mk (some { header := none, url := none })
      (some [Item.mk none (some [Item.mk (some { header := none, url := none }) none]),
             Item.mk (some { header := none, url := none }) none])]

/-- The single-directive update list used by the C4 witness. -/
def coverageUpdates : List (String × Directive) :=
  [("headers", ⟨some "add", some "K", some "V", none⟩)]

/-- `coverageItems` after `process_items coverageUpdates`: every request at
every depth has gained the `{"K", "V", "text"}` header. -/
def coverageItemsResult : List Item :=
  [Item.mk (some { header := some [⟨"K", "V", "text"⟩], url := none })
      (some [Item.mk none
               (some [Item.mk (some { header := some [⟨"K", "V", "text"⟩], url := none }) none]),
             Item.mk (some { header := some [⟨"K", "V", "text"⟩], url := none }) none])]

/-- C4 (witness): the coverage theorem applied to the concrete depth-3
tree `coverageItems`. -/
theorem recursive_coverage_witness :
    skeleton coverageItemsResult = skeleton coverageItems ∧
    (collectRequests coverageItems).mapM (processRequest coverageUpdates) =
      Except.ok (collectRequests coverageItemsResult) :=
  recursive_coverage coverageUpdates coverageItems coverageItemsResult
    (by simp [coverageUpdates, coverageItems, coverageItemsResult, process_items, processRequest,
          applyUpdate, applyHeaders, addHeaderEntry, getRequired, bind, Except.bind, pure,
          Except.pure])

/-- C5: a `query_params remove {key:K}` on any request with a url leaves
zero query entries with key `K` (the query list is exactly the normalized
list filtered to non-`K` keys) and does NOT regenerate `raw`: the raw
string still equals the url's raw value from just before the removal (for
a string url, the original string itself). -/
theorem query_remove_preserves_raw (req : Request) (u : Url) (d : Directive) (K : String)
    (hu : req.url = some u) (ha : d.action = some "remove") (hk : d.key = some K) :
    ∃ su' : StructUrl,
      applyQueryParams d req = Except.ok { req with url := some (Url.obj su') } ∧
      su'.query = some ((urlQuery0 u).filter (fun p => p.key != K)) ∧
      countKeyQ K (su'.query.getD []) = 0 ∧
      su'.raw = rawOf u := by
  obtain ⟨hdr, url⟩ := req
  obtain ⟨da, dk, dv, dt⟩ := d
  simp only [Request.url] at hu
  simp only at ha hk
  subst hu ha hk
  cases u with
  | str s =>
    have hq := normalizeUrl_query s
    refine ⟨{ normalizeUrl s with query := some [] }, ?_, ?_, ?_, ?_⟩
    · simp [applyQueryParams, getRequired, hq, bind, Except.bind, pure, Except.pure]
    · simp [urlQuery0]
    · simp [countKeyQ]
    · simpa using normalizeUrl_raw s
  | obj su =>
    rcases hql : su.query.getD [] with _ | ⟨q0, qt⟩
    · refine ⟨{ su with query := some [] }, ?_, ?_, ?_, ?_⟩
      · simp [applyQueryParams, getRequired, hql, bind, Except.bind, pure, Except.pure]
      · simp [urlQuery0, hql]
      · simp [countKeyQ]
      · rfl
    · refine ⟨{ su with query := some ((q0 :: qt).filter (fun p => p.key != K)) }, ?_, ?_, ?_, ?_⟩
      · simp [applyQueryParams, getRequired, hql, bind, Except.bind, pure, Except.pure]
      · simp [urlQuery0, hql]
      · simpa using countKeyQ_filter_ne K (q0 :: qt)
      · rfl

/-- C5 (witness): the theorem applied to a structured url holding two
`"K"` entries around an `"X"` entry, with directive
`query_params remove {key:"K"}`; `raw` keeps its stale value `"r"`. -/
theorem query_remove_preserves_raw_witness :
    ∃ su' : StructUrl,
      applyQueryParams ⟨some "remove", some "K", none, none⟩
          { header := none,
            url := some (Url.obj { raw := "r", protocol := ProtoField.val "http",
                                   host := some ["h"], path := some [],
                                   query := some [⟨"K", "a"⟩, ⟨"X", "b"⟩, ⟨"K", "c"⟩] }) } =
        Except.ok { header := (none : Option (List Header)), url := some (Url.obj su') } ∧
      su'.query = some ((urlQuery0 (Url.obj { raw := "r", protocol := ProtoField.val "http",
                                              host := some ["h"], path := some [],
                                              query := some [⟨"K", "a"⟩, ⟨"X", "b"⟩,
                                                             ⟨"K", "c"⟩] })).filter
                          (fun p => p.key != "K")) ∧
      countKeyQ "K" (su'.query.getD []) = 0 ∧
      su'.raw = rawOf (Url.obj { raw := "r", protocol := ProtoField.val "http",
                                 host := some ["h"], path := some [],
                                 query := some [⟨"K", "a"⟩, ⟨"X", "b"⟩, ⟨"K", "c"⟩] }) :=
  query_remove_preserves_raw _ _ _ _ rfl rfl rfl

/-- C6: normalizing any string-form url yields a structured url whose
query list is empty (text after the first `'?'` is discarded, never parsed
into query entries) and whose `raw` field is the original input string,
unchanged. -/
theorem normalize_string_url_empty_query_and_raw (s : String) :
    (normalizeUrl s).query = some [] ∧ (normalizeUrl s).raw = s :=
  ⟨normalizeUrl_query s, normalizeUrl_raw s⟩

/-- C7 (code evaluated at the failing input): for the scheme-less string
url `"api.example.com/v1/users"`, normalization stores Python `None` under
`protocol` (a present key), so `url.get('protocol', 'http')` in the raw
rebuild returns that `None` instead of the `'http'` default and the
f-string renders it literally: the regenerated raw starts with
`"None://"`, not `"http://"` as the claim states. -/
theorem no_scheme_rebuild_renders_none_protocol :
    applyUpdate "query_params" ⟨some "add", some "k", some "v", none⟩
        { header := none, url := some (Url.str "api.example.com/v1/users") } =
      Except.ok { header := none,
                  url := some (Url.obj { raw := "None://api.example.com/v1/users?k=v",
                                         protocol := ProtoField.null,
                                         host := some ["api", "example", "com"],
                                         path := some ["v1", "users"],
                                         query := some [⟨"k", "v"⟩] }) } :=
  rfl

/-- C8: the spec's worked example, evaluated: url
`"https://api.example.com/v1/users"` with
`query_params add {key:"limit", value:"10"}` yields protocol `"https"`,
host `["api","example","com"]`, path `["v1","users"]`, query
`[{limit,10}]`, and raw `"https://api.example.com/v1/users?limit=10"`. -/
theorem string_url_normalization_example :
    applyUpdate "query_params" ⟨some "add", some "limit", some "10", none⟩
        { header := none, url := some (Url.str "https://api.example.com/v1/users") } =
      Except.ok { header := none,
                  url := some (Url.obj { raw := "https://api.example.com/v1/users?limit=10",
                                         protocol := ProtoField.val "https",
                                         host := some ["api", "example", "com"],
                                         path := some ["v1", "users"],
                                         query := some [⟨"limit", "10"⟩] }) } :=
  rfl

/-- C9 (counterexample): a document lacking `info` together with a
`headers add` directive lacking both `key` and `value` is still processed
SUCCESSFULLY when the item list holds no request (here: empty), because
`bulk_update` never checks `info` and directive fields are only read when
a request is actually processed — contradicting the claim that every such
input yields an error. -/
theorem bulk_update_no_validation_counterexample :
    bulk_update { info := none, item := some [] }
        [("headers", ⟨some "add", none, none, none⟩)] =
      Except.ok { info := none, item := some [] } := by
  simp [bulk_update, process_items, Except.map, pure, Except.pure]

/-- C9 (amended): validation is partial and lazy.  A document lacking
`item` always errors; a directive lacking a required field (here `key` on
a `headers add`) errors exactly when some request's processing reaches the
missing-field access; but `info` is never checked and a malformed
directive over a request-free item list returns success. -/
theorem bulk_update_lazy_validation :
    (∀ (info : Option Unit) (updates : List (String × Directive)),
      bulk_update { info := info, item := none } updates = Except.error "KeyError") ∧
    (∀ (info : Option Unit) (hdr : Option (List Header)) (u : Option Url) (v t : Option String),
      bulk_update { info := info, item := some [Item.mk (some ⟨hdr, u⟩) none] }
          [("headers", ⟨some "add", none, v, t⟩)] =
        Except.error "KeyError") ∧
    (∀ (info : Option Unit) (updates : List (String × Directive)),
      bulk_update { info := info, item := some [] } updates =
        Except.ok { info := info, item := some [] }) := by
  refine ⟨fun info updates => rfl, ?_, ?_⟩
  · intro info hdr u v t
    simp [bulk_update, process_items, processRequest, applyUpdate, applyHeaders, getRequired,
      bind, Except.bind, pure, Except.pure, Except.map]
  · intro info updates
    simp [bulk_update, process_items, Except.map, pure, Except.pure]

/-- C10: the raw rebuild inside `query_params add` is total over
structured urls with an absent `protocol`, `host`, or `path` key: the add
always succeeds, an absent protocol key falls back to the `"http"`
default, and absent host/path keys are read as empty sequences (joining to
empty strings), giving a raw of the shape `protocol://host/path?query`. -/
theorem rebuild_raw_total_with_defaults (req : Request) (su : StructUrl) (d : Directive)
    (K V : String) (hu : req.url = some (Url.obj su)) (hp : su.protocol = ProtoField.absent)
    (ha : d.action = some "add") (hk : d.key = some K) (hv : d.value = some V) :
    ∃ q' : List QueryParam,
      applyQueryParams d req =
        Except.ok { req with url := some (Url.obj
          { raw := "http" ++ "://" ++ String.intercalate "." (su.host.getD []) ++ "/" ++
              String.intercalate "/" (su.path.getD []) ++ "?" ++
              String.intercalate "&" (q'.map (fun p => p.key ++ "=" ++ p.value)),
            protocol := ProtoField.absent, host := su.host, path := su.path,
            query := some q' }) } := by
  obtain ⟨hdr, url⟩ := req
  obtain ⟨da, dk, dv, dt⟩ := d
  obtain ⟨raw0, proto0, host0, path0, query0⟩ := su
  simp only [Request.url] at hu
  simp only at ha hk hv hp
  subst hu ha hk hv hp
  exact ⟨addQueryParam K V (query0.getD []), rfl⟩

/-- C10 (witness): the theorem applied to a structured url with absent
`host`, `path` and `query` keys and an absent `protocol`; the add succeeds
and the rebuilt raw is `"http:///?a=b"`. -/
theorem rebuild_raw_total_with_defaults_witness :
    ∃ q' : List QueryParam,
      applyQueryParams ⟨some "add", some "a", some "b", none⟩
          { header := none,
            url := some (Url.obj { raw := "x", protocol := ProtoField.absent,
                                   host := none, path := none, query := none }) } =
        Except.ok { header := (none : Option (List Header)), url := some (Url.obj
          { raw := "http" ++ "://" ++
              String.intercalate "." ((none : Option (List String)).getD []) ++ "/" ++
              String.intercalate "/" ((none : Option (List String)).getD []) ++ "?" ++
              String.intercalate "&" (q'.map (fun p => p.key ++ "=" ++ p.value)),
            protocol := ProtoField.absent, host := (none : Option (List String)),
            path := (none : Option (List String)), query := some q' }) } :=
  rebuild_raw_total_with_defaults
    { header := none,
      url := some (Url.obj { raw := "x", protocol := ProtoField.absent,
                             host := none, path := none, query := none }) }
    { raw := "x", protocol := ProtoField.absent, host := none, path := none, query := none }
    ⟨some "add", some "a", some "b", none⟩ "a" "b" rfl rfl rfl rfl rfl

end PostmanToolkit
